import Mathlib

/-!
# Verification of the multi-sample classification core (`src/classifier.ts`)

This file embeds the aggregation / normalization / dominance-decision engine
of the migration-engine repository and proves the specification's claims
about it.

Modelling conventions:
* JavaScript numbers carrying confidences are modelled as exact rationals
  (`ℚ`); the spec's arithmetic statements are stated as exact arithmetic.
* `JSON.stringify` applied to an array of strings (used by `getPathKey`) is
  an injective encoding of a `List String`; a candidate key is therefore
  modelled as the `List String` itself, so that key equality coincides with
  the equality `JSON.stringify` induces.
* A JavaScript `Map` is modelled as an association list: `set` on a fresh
  key appends at the end (insertion order), `set` on a present key updates
  the entry in place.  `Array.from(map.entries())` enumerates in insertion
  order.
* `Array.prototype.sort` is stable; it is modelled by `List.insertionSort`,
  which inserts each earlier element in front of the later elements it ties
  with, i.e. the unique stable sort for the comparator
  `(a, b) => b.normalizedConfidence - a.normalizedConfidence`.
* The sequential retry loop of `classifyFile` is modelled with a structural
  fuel parameter.  The loop body increments `attempts` on every iteration
  and the guard requires `attempts < 6`, so starting from `attempts = 0`
  the loop runs at most 6 iterations and initial fuel 6 is never exhausted
  (`collectLoop_fuel_irrelevant` below makes this exact).
* The external oracle (`makeTrial`) is modelled as a function from the
  0-based attempt index to `Option TrialResult`: `none` is a throwing
  (failed or malformed) invocation, `some t` a usable sample.
* `throw new Error msg` in `classifyFile` is modelled as `Except.error msg`.
-/

/-- `FolderSuggestion` from `classifier.ts`: one candidate destination
proposed by a single trial.  `confidence` is the oracle-assigned score. -/
structure FolderSuggestion where
  path : List String
  newFolderName : Option String
  isNewFolder : Bool
  confidence : ℚ
deriving DecidableEq

/-- `TrialResult` from `classifier.ts`: the parsed suggestions of one
successful oracle invocation plus the raw response text kept for audit. -/
structure TrialResult where
  suggestions : List FolderSuggestion
  rawResponse : String
deriving DecidableEq

/-- `getPathKey` from `classifier.ts`.  The source returns
`JSON.stringify([...path, `NEW:${newFolderName}`])` when
`isNewFolder && newFolderName` is truthy (a `string` is truthy iff it is
non-empty) and `JSON.stringify(path)` otherwise; since `JSON.stringify` is
injective on arrays of strings we return the underlying string list. -/
def getPathKey (path : List String) (newFolderName : Option String) (isNewFolder : Bool) :
    List String :=
  match isNewFolder, newFolderName with
  | true, some s => if s ≠ "" then path ++ ["NEW:" ++ s] else path
  | _, _ => path

/-- The candidate key of a suggestion, as computed at the single call site
of `getPathKey` inside `aggregateSuggestions`. -/
def suggestionKey (s : FolderSuggestion) : List String :=
  getPathKey s.path s.newFolderName s.isNewFolder

/-- The record value stored in the `aggregated` map of
`aggregateSuggestions`: first-sighting payload plus accumulated
`totalConfidence` and `count`. -/
structure AggEntry where
  path : List String
  newFolderName : Option String
  isNewFolder : Bool
  totalConfidence : ℚ
  count : Nat
deriving DecidableEq

/-- One iteration of the inner loop of `aggregateSuggestions`: if the key of
`s` is already present, add `s.confidence` to `totalConfidence` and
increment `count` in place; otherwise append a fresh entry seeded with
`totalConfidence = confidence` and `count = 1` (JavaScript `Map` insertion
order). -/
def insertSuggestion (m : List (List String × AggEntry)) (s : FolderSuggestion) :
    List (List String × AggEntry) :=
  match m with
  | [] => [(suggestionKey s, ⟨s.path, s.newFolderName, s.isNewFolder, s.confidence, 1⟩)]
  | (k, e) :: rest =>
    if k = suggestionKey s then
      (k, ⟨e.path, e.newFolderName, e.isNewFolder, e.totalConfidence + s.confidence, e.count + 1⟩)
        :: rest
    else
      (k, e) :: insertSuggestion rest s

/-- `aggregateSuggestions` from `classifier.ts`: fold every suggestion of
every trial, in order, into the keyed map. -/
def aggregateSuggestions (trials : List TrialResult) : List (List String × AggEntry) :=
  trials.foldl (fun m t => t.suggestions.foldl insertSuggestion m) []

/-- An element of the `normalized` array of `classifier.ts`: an aggregated
candidate together with its normalized confidence. -/
structure NormEntry where
  path : List String
  newFolderName : Option String
  isNewFolder : Bool
  normalizedConfidence : ℚ
  count : Nat
deriving DecidableEq

/-- The orientation of the sort comparator
`(a, b) => b.normalizedConfidence - a.normalizedConfidence` used by
`normalizeConfidences`: `a` may precede `b` iff `a`'s normalized confidence
is at least `b`'s (descending order). -/
def confGE (a b : NormEntry) : Prop :=
  b.normalizedConfidence ≤ a.normalizedConfidence

instance : DecidableRel confGE :=
  fun a b => inferInstanceAs (Decidable (b.normalizedConfidence ≤ a.normalizedConfidence))

/-- The `totalConfidence` accumulator of `normalizeConfidences`:
`reduce((sum, item) => sum + item.totalConfidence, 0)` over the map
values in insertion order. -/
def grandTotal (aggregated : List (List String × AggEntry)) : ℚ :=
  aggregated.foldl (fun sum item => sum + item.2.totalConfidence) 0

/-- `normalizeConfidences` from `classifier.ts`: returns `[]` when the
grand total is `0`; otherwise maps every aggregated entry to its
normalized confidence `totalConfidence / grandTotal * 100` and sorts the
result descending with JavaScript's stable sort. -/
def normalizeConfidences (aggregated : List (List String × AggEntry)) : List NormEntry :=
  if grandTotal aggregated = 0 then []
  else
    List.insertionSort confGE
      (aggregated.map fun item =>
        ⟨item.2.path, item.2.newFolderName, item.2.isNewFolder,
          item.2.totalConfidence / grandTotal aggregated * 100, item.2.count⟩)

/-- The review-reason string pushed when the absolute-confidence rule
fails (`LowAbsoluteConfidence` in the spec). -/
def LowAbsoluteConfidence : String := "low absolute confidence"

/-- The review-reason string pushed when the relative-dominance rule fails
(`CloseAlternatives` in the spec). -/
def CloseAlternatives : String := "close alternatives"

/-- The review-reason string pushed when the new-folder caution rule fails
(`NewFolderUnverified` in the spec). -/
def NewFolderUnverified : String := "new folder suggestion needs verification"

/-- The review-reason string pushed when some new-folder candidate was
proposed by exactly one trial (`NewFolderSingleTrial` in the spec). -/
def NewFolderSingleTrial : String := "new folder suggested in only one trial"

/-- `isNewFolderSuggestedMultipleTimes` from `classifier.ts` (the `trials`
argument is unused in the source body as well). -/
def isNewFolderSuggestedMultipleTimes (normalized : List NormEntry)
    (_trials : List TrialResult) : Bool :=
  let newFolderSuggestions := normalized.filter (·.isNewFolder)
  if newFolderSuggestions.isEmpty then false
  else newFolderSuggestions.any fun n => decide (2 ≤ n.count)

/-- The `absoluteThreshold` constant of `classifyFile`:
`topChoice.normalizedConfidence >= 50`. -/
def absoluteThreshold (topChoice : NormEntry) : Bool :=
  decide (50 ≤ topChoice.normalizedConfidence)

/-- The `relativeDominance` constant of `classifyFile`:
`alternatives.length === 0 || topChoice.normalizedConfidence >= 2 * alternatives[0].normalizedConfidence`. -/
def relativeDominance (topChoice : NormEntry) (alternatives : List NormEntry) : Bool :=
  match alternatives with
  | [] => true
  | a :: _ => decide (2 * a.normalizedConfidence ≤ topChoice.normalizedConfidence)

/-- The `hasNewFolderInSingleTrial` constant of `classifyFile`:
`normalized.some(n => n.isNewFolder && n.count === 1)`. -/
def hasNewFolderInSingleTrial (normalized : List NormEntry) : Bool :=
  normalized.any fun n => n.isNewFolder && n.count == 1

/-- The `newFolderNeedsReview` constant of `classifyFile`:
`topChoice.isNewFolder && (!newFolderSuggestedMultipleTimes || topChoice.count < 3 || topChoice.normalizedConfidence < 50)`. -/
def newFolderNeedsReview (topChoice : NormEntry) (normalized : List NormEntry)
    (trials : List TrialResult) : Bool :=
  topChoice.isNewFolder &&
    (!isNewFolderSuggestedMultipleTimes normalized trials ||
      decide (topChoice.count < 3) || decide (topChoice.normalizedConfidence < 50))

/-- The `isDominant` constant of `classifyFile`: conjunction of the
absolute threshold, relative dominance, negated new-folder review flag and
negated single-trial flag, with `normalized = topChoice :: alternatives`. -/
def isDominant (topChoice : NormEntry) (alternatives : List NormEntry)
    (trials : List TrialResult) : Bool :=
  absoluteThreshold topChoice && relativeDominance topChoice alternatives &&
    !newFolderNeedsReview topChoice (topChoice :: alternatives) trials &&
    !hasNewFolderInSingleTrial (topChoice :: alternatives)

/-- The `reviewReasons` array of `classifyFile`, built by four `push`
statements in source order (rules 1, 2, 3, 4). -/
def reviewReasons (topChoice : NormEntry) (alternatives : List NormEntry)
    (trials : List TrialResult) : List String :=
  (if absoluteThreshold topChoice then [] else [LowAbsoluteConfidence]) ++
  (if !relativeDominance topChoice alternatives && !alternatives.isEmpty then
      [CloseAlternatives] else []) ++
  (if newFolderNeedsReview topChoice (topChoice :: alternatives) trials then
      [NewFolderUnverified] else []) ++
  (if hasNewFolderInSingleTrial (topChoice :: alternatives) then
      [NewFolderSingleTrial] else [])

/-- The candidate fields exposed in `topChoice`/`alternatives` of the
returned `ClassificationResult` (the `count` field is not exposed). -/
structure ChoiceInfo where
  path : List String
  newFolderName : Option String
  isNewFolder : Bool
  normalizedConfidence : ℚ
deriving DecidableEq

/-- Projection of a normalized entry to the exposed choice fields, as in
the return statement of `classifyFile`. -/
def NormEntry.toChoice (n : NormEntry) : ChoiceInfo :=
  ⟨n.path, n.newFolderName, n.isNewFolder, n.normalizedConfidence⟩

/-- `ClassificationResult` from `classifier.ts`.  `reviewReason` is the
`"; "`-joined reason list, `undefined` (`none`) when no reason fired. -/
structure ClassificationResult where
  topChoice : ChoiceInfo
  alternatives : List ChoiceInfo
  isDominant : Bool
  needsReview : Bool
  reviewReason : Option String
  rawTrials : List TrialResult
deriving DecidableEq

/-- The value returned by `classifyFile` for a given top choice, list of
alternatives and collected trials. -/
def buildResult (topChoice : NormEntry) (alternatives : List NormEntry)
    (trials : List TrialResult) : ClassificationResult :=
  ⟨topChoice.toChoice, alternatives.map NormEntry.toChoice,
    isDominant topChoice alternatives trials, !isDominant topChoice alternatives trials,
    (match reviewReasons topChoice alternatives trials with
      | [] => none
      | rs => some (String.intercalate "; " rs)),
    trials⟩

/-- The post-sampling part of `classifyFile`: aggregate, normalize, throw
`"No valid suggestions received from any trial"` on an empty ranking, and
otherwise build the result from `normalized[0]` and `normalized.slice(1)`. -/
def classifyPipeline (trials : List TrialResult) : Except String ClassificationResult :=
  match normalizeConfidences (aggregateSuggestions trials) with
  | [] => Except.error "No valid suggestions received from any trial"
  | topChoice :: alternatives => Except.ok (buildResult topChoice alternatives trials)

/-- The `while (trials.length < 3 && attempts < maxAttempts)` loop of
`classifyFile` with `maxAttempts = 6`.  `oracle i` is the outcome of the
attempt with 0-based index `i` (`attempts` holds the index of the next
attempt): `some t` pushes the trial, `none` is a caught failure.  The
first argument is structural fuel; every iteration increments `attempts`
and the guard requires `attempts < 6`, so fuel `6 - attempts` suffices. -/
def collectLoop (oracle : Nat → Option TrialResult) :
    Nat → List TrialResult → Nat → List TrialResult × Nat
  | 0, trials, attempts => (trials, attempts)
  | fuel + 1, trials, attempts =>
    if trials.length < 3 ∧ attempts < 6 then
      match oracle attempts with
      | some t => collectLoop oracle fuel (trials ++ [t]) (attempts + 1)
      | none => collectLoop oracle fuel trials (attempts + 1)
    else (trials, attempts)

/-- The sampling loop of `classifyFile` run from its initial state
(`trials = []`, `attempts = 0`); returns the collected usable trials and
the number of attempts consumed. -/
def collectTrials (oracle : Nat → Option TrialResult) : List TrialResult × Nat :=
  collectLoop oracle 6 [] 0

/-- `classifyFile` from `classifier.ts`, with the oracle abstracted:
collect trials, throw `"All classification trials failed"` when none was
usable, then run the aggregation pipeline. -/
def classifyFile (oracle : Nat → Option TrialResult) : Except String ClassificationResult :=
  let trials := (collectTrials oracle).1
  if trials.length = 0 then Except.error "All classification trials failed"
  else classifyPipeline trials

/-! ## Concrete inputs used by witnesses and counterexamples -/

/-- Existing-destination suggestion whose final path segment spells the
new-folder sentinel: `path = ["X", "NEW:Y"]`, confidence 60. -/
def sExisting : FolderSuggestion := ⟨["X", "NEW:Y"], none, false, 60⟩

/-- New-destination suggestion aliasing `sExisting` under `getPathKey`:
parent `["X"]`, `newFolderName = "Y"`, confidence 40. -/
def sNew : FolderSuggestion := ⟨["X"], some "Y", true, 40⟩

/-- A ranked list whose top has normalized confidence 51 and second best
30 (a third candidate holds the remaining 19): rule 2 fails, 51 < 60. -/
def top51 : NormEntry := ⟨["A"], none, false, 51, 1⟩

/-- Second-best entry at 30 for the `top51` example. -/
def alt30 : NormEntry := ⟨["B"], none, false, 30, 1⟩

/-- Third entry at 19 for the `top51` example. -/
def alt19 : NormEntry := ⟨["C"], none, false, 19, 1⟩

/-- Top entry at normalized confidence 67 (second best 33): both dominance
rules pass, 67 ≥ 50 and 67 ≥ 66. -/
def top67 : NormEntry := ⟨["A"], none, false, 67, 3⟩

/-- Second-best entry at 33 for the `top67` example. -/
def alt33 : NormEntry := ⟨["B"], none, false, 33, 1⟩

/-- A usable trial consisting of one plain suggestion, used by the sampler
examples. -/
def trialA : TrialResult := ⟨[⟨["A"], none, false, 80⟩], "ok"⟩

/-- Oracle that fails on the first two attempts and succeeds from the
third attempt on. -/
def oracleTwoFailures (i : Nat) : Option TrialResult :=
  if i < 2 then none else some trialA

/-- Oracle whose every attempt fails. -/
def oracleAllFail (_ : Nat) : Option TrialResult := none

/-- A single trial that proposes the same new folder three times (a
duplicate key inside one sample), confidence 90 each. -/
def trialDupNew : TrialResult :=
  ⟨[⟨["P"], some "Q", true, 90⟩, ⟨["P"], some "Q", true, 90⟩, ⟨["P"], some "Q", true, 90⟩], "dup"⟩

/-- Oracle succeeding once with `trialDupNew` and failing afterwards. -/
def oracleDupNew (i : Nat) : Option TrialResult :=
  if i = 0 then some trialDupNew else none

/-- Trial proposing the new folder `Q` under `["P"]` with confidence 90. -/
def trialNew90 : TrialResult := ⟨[⟨["P"], some "Q", true, 90⟩], "n"⟩

/-- Trial proposing the existing destination `["E"]` with confidence 10. -/
def trialOld10 : TrialResult := ⟨[⟨["E"], none, false, 10⟩], "e"⟩

/-- Trial proposing only candidate `["A"]` at confidence 50. -/
def trialOnlyA : TrialResult := ⟨[⟨["A"], none, false, 50⟩], "a"⟩

/-- Trial proposing only candidate `["B"]` at confidence 50. -/
def trialOnlyB : TrialResult := ⟨[⟨["B"], none, false, 50⟩], "b"⟩

/-- Trial proposing `["A"]` at 60 and `["B"]` at 95. -/
def trialMass1 : TrialResult := ⟨[⟨["A"], none, false, 60⟩, ⟨["B"], none, false, 95⟩], "m1"⟩

/-- Trial proposing only `["A"]` at 60. -/
def trialMass2 : TrialResult := ⟨[⟨["A"], none, false, 60⟩], "m2"⟩

/-! ## Derived views of the aggregation used to state its properties -/

/-- All suggestions of all trials in iteration order: the domain of the
nested loops of `aggregateSuggestions`. -/
def allSuggestions (trials : List TrialResult) : List FolderSuggestion :=
  trials.flatMap (·.suggestions)

/-- The suggestions (across all trials, in order) whose candidate key is
`k`. -/
def suggestionsWithKey (trials : List TrialResult) (k : List String) : List FolderSuggestion :=
  (allSuggestions trials).filter fun s => suggestionKey s == k

/-- The effect of one suggestion on the aggregated entry stored under its
own key: seed on first sighting, accumulate confidence and count
afterwards (the two branches of the body of `aggregateSuggestions`). -/
def applySuggestion (o : Option AggEntry) (s : FolderSuggestion) : Option AggEntry :=
  match o with
  | some e =>
    some ⟨e.path, e.newFolderName, e.isNewFolder, e.totalConfidence + s.confidence, e.count + 1⟩
  | none => some ⟨s.path, s.newFolderName, s.isNewFolder, s.confidence, 1⟩

/-- Total confidence held by an optional aggregated entry (0 when the key
is absent). -/
def optTotalConfidence (o : Option AggEntry) : ℚ :=
  match o with
  | some e => e.totalConfidence
  | none => 0

/-- Occurrence count held by an optional aggregated entry (0 when the key
is absent). -/
def optOccurrenceCount (o : Option AggEntry) : Nat :=
  match o with
  | some e => e.count
  | none => 0

/-! ## Claim C10: the candidate-key function is not injective -/

/-- Claim C10: `getPathKey` is not injective on structurally distinct valid
suggestions: the existing-destination suggestion with final path segment
`"NEW:Y"` and the new-destination suggestion with `newFolderName = "Y"`
under parent `["X"]` receive the same candidate key, so the aggregator
merges them into one candidate whose `path`/`isNewFolder` payload comes
from whichever suggestion was seen first. -/
theorem C10_key_aliasing :
    sExisting ≠ sNew ∧
    sExisting.isNewFolder = false ∧
    sNew.isNewFolder = true ∧ sNew.newFolderName = some "Y" ∧
    suggestionKey sExisting = suggestionKey sNew ∧
    (aggregateSuggestions [⟨[sExisting, sNew], "r"⟩]).map
        (fun p => (p.2.path, p.2.isNewFolder, p.2.totalConfidence, p.2.count)) =
      [(["X", "NEW:Y"], false, 100, 2)] ∧
    (aggregateSuggestions [⟨[sNew, sExisting], "r"⟩]).map
        (fun p => (p.2.path, p.2.isNewFolder, p.2.totalConfidence, p.2.count)) =
      [(["X"], true, 100, 2)] := by
  refine ⟨by simp +decide [sExisting, sNew], rfl, rfl, rfl, rfl, ?_, ?_⟩ <;>
    norm_num +decide [aggregateSuggestions, insertSuggestion, suggestionKey, getPathKey,
      sExisting, sNew]

/-! ## Sampler loop lemmas -/

/-- One unfolding of the sampling loop. -/
theorem collectLoop_succ (oracle : Nat → Option TrialResult) (fuel : Nat)
    (trials : List TrialResult) (attempts : Nat) :
    collectLoop oracle (fuel + 1) trials attempts =
      if trials.length < 3 ∧ attempts < 6 then
        match oracle attempts with
        | some t => collectLoop oracle fuel (trials ++ [t]) (attempts + 1)
        | none => collectLoop oracle fuel trials (attempts + 1)
      else (trials, attempts) := rfl

/-- A failed attempt consumes one attempt and no usable sample. -/
theorem collectLoop_step_none (oracle : Nat → Option TrialResult) (fuel : Nat)
    (trials : List TrialResult) (attempts : Nat)
    (h1 : trials.length < 3) (h2 : attempts < 6) (ho : oracle attempts = none) :
    collectLoop oracle (fuel + 1) trials attempts =
      collectLoop oracle fuel trials (attempts + 1) := by
  rw [collectLoop_succ, if_pos ⟨h1, h2⟩, ho]

/-- A successful attempt consumes one attempt and appends its trial. -/
theorem collectLoop_step_some (oracle : Nat → Option TrialResult) (fuel : Nat)
    (trials : List TrialResult) (attempts : Nat) (t : TrialResult)
    (h1 : trials.length < 3) (h2 : attempts < 6) (ho : oracle attempts = some t) :
    collectLoop oracle (fuel + 1) trials attempts =
      collectLoop oracle fuel (trials ++ [t]) (attempts + 1) := by
  rw [collectLoop_succ, if_pos ⟨h1, h2⟩, ho]

/-- The loop stops as soon as its guard fails. -/
theorem collectLoop_stop (oracle : Nat → Option TrialResult) (fuel : Nat)
    (trials : List TrialResult) (attempts : Nat)
    (h : ¬(trials.length < 3 ∧ attempts < 6)) :
    collectLoop oracle (fuel + 1) trials attempts = (trials, attempts) := by
  rw [collectLoop_succ, if_neg h]

/-- The fuel parameter is irrelevant as soon as it covers the remaining
attempt budget `6 - attempts`: the loop is an exact model of the source's
`while` loop, which always terminates within the attempt budget. -/
theorem collectLoop_fuel_irrelevant (oracle : Nat → Option TrialResult) :
    ∀ fuel trials attempts, 6 ≤ attempts + fuel →
      collectLoop oracle (fuel + 1) trials attempts = collectLoop oracle fuel trials attempts := by
  intro fuel
  induction fuel with
  | zero =>
    intro trials attempts h
    rw [collectLoop_stop oracle 0 trials attempts (by omega)]
    rfl
  | succ n ih =>
    intro trials attempts h
    by_cases hg : trials.length < 3 ∧ attempts < 6
    · rcases ho : oracle attempts with _ | t
      · rw [collectLoop_step_none oracle (n + 1) trials attempts hg.1 hg.2 ho,
          collectLoop_step_none oracle n trials attempts hg.1 hg.2 ho]
        exact ih trials (attempts + 1) (by omega)
      · rw [collectLoop_step_some oracle (n + 1) trials attempts t hg.1 hg.2 ho,
          collectLoop_step_some oracle n trials attempts t hg.1 hg.2 ho]
        exact ih (trials ++ [t]) (attempts + 1) (by omega)
    · rw [collectLoop_stop oracle (n + 1) trials attempts hg,
        collectLoop_stop oracle n trials attempts hg]

/-- The loop never shrinks the collected trial list. -/
theorem collectLoop_length_mono (oracle : Nat → Option TrialResult) :
    ∀ fuel trials attempts,
      trials.length ≤ (collectLoop oracle fuel trials attempts).1.length := by
  intro fuel
  induction fuel with
  | zero => intro trials attempts; exact Nat.le_refl _
  | succ n ih =>
    intro trials attempts
    by_cases hg : trials.length < 3 ∧ attempts < 6
    · rcases ho : oracle attempts with _ | t
      · rw [collectLoop_step_none oracle n trials attempts hg.1 hg.2 ho]
        exact ih trials (attempts + 1)
      · rw [collectLoop_step_some oracle n trials attempts t hg.1 hg.2 ho]
        calc trials.length ≤ (trials ++ [t]).length := by simp
          _ ≤ _ := ih (trials ++ [t]) (attempts + 1)
    · rw [collectLoop_stop oracle n trials attempts hg]

/-- The loop never collects more than 3 usable samples. -/
theorem collectLoop_length_le (oracle : Nat → Option TrialResult) :
    ∀ fuel trials attempts, trials.length ≤ 3 →
      (collectLoop oracle fuel trials attempts).1.length ≤ 3 := by
  intro fuel
  induction fuel with
  | zero => intro trials attempts h; exact h
  | succ n ih =>
    intro trials attempts h
    by_cases hg : trials.length < 3 ∧ attempts < 6
    · rcases ho : oracle attempts with _ | t
      · rw [collectLoop_step_none oracle n trials attempts hg.1 hg.2 ho]
        exact ih trials (attempts + 1) h
      · rw [collectLoop_step_some oracle n trials attempts t hg.1 hg.2 ho]
        exact ih (trials ++ [t]) (attempts + 1) (by simp; omega)
    · rw [collectLoop_stop oracle n trials attempts hg]
      exact h

/-- The loop never exceeds the attempt budget of 6. -/
theorem collectLoop_attempts_le (oracle : Nat → Option TrialResult) :
    ∀ fuel trials attempts, attempts ≤ 6 →
      (collectLoop oracle fuel trials attempts).2 ≤ 6 := by
  intro fuel
  induction fuel with
  | zero => intro trials attempts h; exact h
  | succ n ih =>
    intro trials attempts h
    by_cases hg : trials.length < 3 ∧ attempts < 6
    · rcases ho : oracle attempts with _ | t
      · rw [collectLoop_step_none oracle n trials attempts hg.1 hg.2 ho]
        exact ih trials (attempts + 1) (by omega)
      · rw [collectLoop_step_some oracle n trials attempts t hg.1 hg.2 ho]
        exact ih (trials ++ [t]) (attempts + 1) (by omega)
    · rw [collectLoop_stop oracle n trials attempts hg]
      exact h

/-- The loop ends with zero usable samples exactly when it started with
none and every attempt in the remaining budget fails. -/
theorem collectLoop_empty_iff (oracle : Nat → Option TrialResult) :
    ∀ fuel trials attempts, 6 ≤ attempts + fuel →
      ((collectLoop oracle fuel trials attempts).1 = [] ↔
        trials = [] ∧ ∀ i, attempts ≤ i → i < 6 → oracle i = none) := by
  intro fuel
  induction fuel with
  | zero =>
    intro trials attempts h
    constructor
    · intro he
      exact ⟨he, fun i hi1 hi2 => absurd (by omega : (6:Nat) ≤ i) (by omega)⟩
    · intro ⟨he, _⟩
      exact he
  | succ n ih =>
    intro trials attempts h
    by_cases hg : trials.length < 3 ∧ attempts < 6
    · rcases ho : oracle attempts with _ | t
      · rw [collectLoop_step_none oracle n trials attempts hg.1 hg.2 ho]
        rw [ih trials (attempts + 1) (by omega)]
        constructor
        · intro ⟨he, hall⟩
          refine ⟨he, fun i hi1 hi2 => ?_⟩
          rcases Nat.eq_or_lt_of_le hi1 with heq | hlt
          · rw [← heq]; exact ho
          · exact hall i hlt hi2
        · intro ⟨he, hall⟩
          exact ⟨he, fun i hi1 hi2 => hall i (by omega) hi2⟩
      · rw [collectLoop_step_some oracle n trials attempts t hg.1 hg.2 ho]
        constructor
        · intro he
          have := collectLoop_length_mono oracle n (trials ++ [t]) (attempts + 1)
          rw [he] at this
          simp at this
        · intro ⟨_, hall⟩
          have := hall attempts (Nat.le_refl _) hg.2
          rw [ho] at this
          exact absurd this (by simp)
    · rw [collectLoop_stop oracle n trials attempts hg]
      constructor
      · intro he
        refine ⟨he, fun i hi1 hi2 => ?_⟩
        subst he
        simp at hg
        omega
      · intro ⟨he, _⟩
        exact he

/-! ## Claims C8 and C9: the sampler -/

/-- Claim C8: the sampler makes at most 6 sequential attempts and collects at
most 3 usable samples; with an oracle failing twice and then succeeding,
it collects exactly 3 usable samples in 5 attempts, and the outcome is
independent of what any attempt with index ≥ 5 would return (a 6th
attempt is never made). -/
theorem C8_sampler_budget :
    (∀ oracle, (collectTrials oracle).1.length ≤ 3 ∧ (collectTrials oracle).2 ≤ 6) ∧
    collectTrials oracleTwoFailures = ([trialA, trialA, trialA], 5) ∧
    (∀ g : Nat → Option TrialResult, (∀ i, i < 5 → g i = oracleTwoFailures i) →
      collectTrials g = ([trialA, trialA, trialA], 5)) := by
  have hrun : ∀ g : Nat → Option TrialResult, (∀ i, i < 5 → g i = oracleTwoFailures i) →
      collectTrials g = ([trialA, trialA, trialA], 5) := by
    intro g h
    have e0 : g 0 = none := (h 0 (by omega)).trans rfl
    have e1 : g 1 = none := (h 1 (by omega)).trans rfl
    have e2 : g 2 = some trialA := (h 2 (by omega)).trans rfl
    have e3 : g 3 = some trialA := (h 3 (by omega)).trans rfl
    have e4 : g 4 = some trialA := (h 4 (by omega)).trans rfl
    calc collectTrials g = collectLoop g 6 [] 0 := rfl
      _ = collectLoop g 5 [] 1 := collectLoop_step_none g 5 [] 0 (by simp) (by omega) e0
      _ = collectLoop g 4 [] 2 := collectLoop_step_none g 4 [] 1 (by simp) (by omega) e1
      _ = collectLoop g 3 [trialA] 3 :=
        collectLoop_step_some g 3 [] 2 trialA (by simp) (by omega) e2
      _ = collectLoop g 2 [trialA, trialA] 4 :=
        collectLoop_step_some g 2 [trialA] 3 trialA (by simp) (by omega) e3
      _ = collectLoop g 1 [trialA, trialA, trialA] 5 :=
        collectLoop_step_some g 1 [trialA, trialA] 4 trialA (by simp) (by omega) e4
      _ = ([trialA, trialA, trialA], 5) :=
        collectLoop_stop g 0 [trialA, trialA, trialA] 5 (by simp)
  refine ⟨fun oracle => ⟨?_, ?_⟩, hrun oracleTwoFailures (fun _ _ => rfl), hrun⟩
  · exact collectLoop_length_le oracle 6 [] 0 (by simp)
  · exact collectLoop_attempts_le oracle 6 [] 0 (by omega)

/-- Witness for `C8_sampler_budget` at concrete oracles. -/
theorem C8_sampler_budget_witness :
    (collectTrials oracleAllFail).1.length ≤ 3 ∧ (collectTrials oracleAllFail).2 ≤ 6 ∧
    collectTrials oracleTwoFailures = ([trialA, trialA, trialA], 5) :=
  ⟨(C8_sampler_budget.1 oracleAllFail).1, (C8_sampler_budget.1 oracleAllFail).2,
    C8_sampler_budget.2.2 oracleTwoFailures (fun _ _ => rfl)⟩

/-- Claim C9: zero usable samples are collected exactly when every one of the 6
budgeted attempts fails; an always-failing oracle exhausts all 6 attempts,
and `classifyFile` raises `"All classification trials failed"` exactly in
the zero-usable-samples case (individual failures are never surfaced). -/
theorem C9_no_usable_samples :
    (∀ oracle, ((collectTrials oracle).1 = [] ↔ ∀ i, i < 6 → oracle i = none)) ∧
    collectTrials oracleAllFail = ([], 6) ∧
    (∀ oracle, classifyFile oracle = Except.error "All classification trials failed" ↔
      ∀ i, i < 6 → oracle i = none) := by
  have hmain : ∀ oracle : Nat → Option TrialResult,
      ((collectTrials oracle).1 = [] ↔ ∀ i, i < 6 → oracle i = none) := by
    intro oracle
    rw [collectTrials, collectLoop_empty_iff oracle 6 [] 0 (by omega)]
    constructor
    · intro ⟨_, hall⟩ i hi
      exact hall i (Nat.zero_le i) hi
    · intro hall
      exact ⟨rfl, fun i _ hi => hall i hi⟩
  have hfail : collectTrials oracleAllFail = ([], 6) := by
    calc collectTrials oracleAllFail = collectLoop oracleAllFail 6 [] 0 := rfl
      _ = collectLoop oracleAllFail 5 [] 1 :=
        collectLoop_step_none _ 5 [] 0 (by simp) (by omega) rfl
      _ = collectLoop oracleAllFail 4 [] 2 :=
        collectLoop_step_none _ 4 [] 1 (by simp) (by omega) rfl
      _ = collectLoop oracleAllFail 3 [] 3 :=
        collectLoop_step_none _ 3 [] 2 (by simp) (by omega) rfl
      _ = collectLoop oracleAllFail 2 [] 4 :=
        collectLoop_step_none _ 2 [] 3 (by simp) (by omega) rfl
      _ = collectLoop oracleAllFail 1 [] 5 :=
        collectLoop_step_none _ 1 [] 4 (by simp) (by omega) rfl
      _ = collectLoop oracleAllFail 0 [] 6 :=
        collectLoop_step_none _ 0 [] 5 (by simp) (by omega) rfl
      _ = ([], 6) := rfl
  refine ⟨hmain, hfail, fun oracle => ?_⟩
  by_cases hlen : (collectTrials oracle).1.length = 0
  · constructor
    · intro _
      exact (hmain oracle).mp (List.length_eq_zero.mp hlen)
    · intro _
      simp [classifyFile, hlen]
  · constructor
    · intro hcf
      exfalso
      simp only [classifyFile, hlen, if_false, if_neg hlen] at hcf
      rcases hn : normalizeConfidences (aggregateSuggestions (collectTrials oracle).1)
        with _ | ⟨top, alts⟩
      · rw [classifyPipeline, hn] at hcf
        simp at hcf
      · rw [classifyPipeline, hn] at hcf
        simp at hcf
    · intro hall
      exact absurd (by rw [(hmain oracle).mpr hall]; rfl) hlen

/-- Witness for `C9_no_usable_samples` at the always-failing oracle. -/
theorem C9_no_usable_samples_witness :
    classifyFile oracleAllFail = Except.error "All classification trials failed" :=
  (C9_no_usable_samples.2.2 oracleAllFail).mpr (fun _ _ => rfl)

/-! ## Claim C1: dominance rules 1 and 2 -/

/-- Claim C1: the verdict is dominant only if the top's normalized confidence is
at least 50 and either there is no alternative or the top reaches twice
the second best; failing rule 1 forbids dominance and adds
`LowAbsoluteConfidence`, failing rule 2 forbids dominance and adds
`CloseAlternatives`. -/
theorem C1_dominance_rules (top : NormEntry) (alts : List NormEntry)
    (trials : List TrialResult) :
    (isDominant top alts trials = true →
      50 ≤ top.normalizedConfidence ∧
      (alts = [] ∨ ∃ a rest, alts = a :: rest ∧
        2 * a.normalizedConfidence ≤ top.normalizedConfidence)) ∧
    (top.normalizedConfidence < 50 →
      isDominant top alts trials = false ∧
      LowAbsoluteConfidence ∈ reviewReasons top alts trials) ∧
    (∀ a rest, alts = a :: rest → top.normalizedConfidence < 2 * a.normalizedConfidence →
      isDominant top alts trials = false ∧
      CloseAlternatives ∈ reviewReasons top alts trials) := by
  refine ⟨?_, ?_, ?_⟩
  · intro h
    rw [isDominant] at h
    simp only [Bool.and_eq_true] at h
    refine ⟨?_, ?_⟩
    · have := h.1.1.1
      rw [absoluteThreshold] at this
      exact of_decide_eq_true this
    · rcases alts with _ | ⟨a, rest⟩
      · exact Or.inl rfl
      · refine Or.inr ⟨a, rest, rfl, ?_⟩
        have := h.1.1.2
        rw [relativeDominance] at this
        exact of_decide_eq_true this
  · intro hlt
    have habs : absoluteThreshold top = false := by
      simp [absoluteThreshold, not_le.mpr hlt]
    constructor
    · simp [isDominant, habs]
    · simp [reviewReasons, habs]
  · intro a rest ha hlt
    subst ha
    have hrel : relativeDominance top (a :: rest) = false := by
      simp [relativeDominance, not_le.mpr hlt]
    constructor
    · simp [isDominant, hrel]
    · simp [reviewReasons, hrel]

/-- Witness for `C1_dominance_rules`: top 51 / second 30 is refused with
`CloseAlternatives` (51 < 60), while top 67 / second 33 passes both rules
and is dominant, so rule 1 and rule 2 hold of it. -/
theorem C1_dominance_rules_witness :
    (isDominant top51 [alt30, alt19] [] = false ∧
      CloseAlternatives ∈ reviewReasons top51 [alt30, alt19] []) ∧
    isDominant top67 [alt33] [] = true ∧
    (50 ≤ top67.normalizedConfidence ∧
      ([alt33] = ([] : List NormEntry) ∨ ∃ a rest, [alt33] = a :: rest ∧
        2 * a.normalizedConfidence ≤ top67.normalizedConfidence)) := by
  have hdom : isDominant top67 [alt33] [] = true := by
    norm_num [isDominant, absoluteThreshold, relativeDominance, newFolderNeedsReview,
      hasNewFolderInSingleTrial, isNewFolderSuggestedMultipleTimes, top67, alt33]
  exact ⟨(C1_dominance_rules top51 [alt30, alt19] []).2.2 alt30 [alt19] rfl
      (by norm_num [top51, alt30]),
    hdom, (C1_dominance_rules top67 [alt33] []).1 hdom⟩

/-! ## Claim C5: single-trial new-folder candidates block dominance -/

/-- Claim C5: if any candidate anywhere in the ranked list is a new-folder
suggestion with `count = 1`, the verdict is not dominant and the reason
`NewFolderSingleTrial` is collected, regardless of the top choice. -/
theorem C5_single_trial_new_folder (top : NormEntry) (alts : List NormEntry)
    (trials : List TrialResult) (n : NormEntry)
    (hn : n ∈ top :: alts) (hnew : n.isNewFolder = true) (hcnt : n.count = 1) :
    isDominant top alts trials = false ∧
    NewFolderSingleTrial ∈ reviewReasons top alts trials := by
  have hflag : hasNewFolderInSingleTrial (top :: alts) = true := by
    rw [hasNewFolderInSingleTrial, List.any_eq_true]
    exact ⟨n, hn, by simp [hnew, hcnt]⟩
  constructor
  · simp [isDominant, hflag]
  · simp [reviewReasons, hflag]

/-- Witness for `C5_single_trial_new_folder`: the top choice is an
existing destination at 90 that passes rules 1–3, yet a losing new-folder
candidate with `count = 1` forces review. -/
theorem C5_single_trial_new_folder_witness :
    isDominant ⟨["E"], none, false, 90, 3⟩ [⟨["P"], some "Q", true, 10, 1⟩] [] = false ∧
    NewFolderSingleTrial ∈
      reviewReasons ⟨["E"], none, false, 90, 3⟩ [⟨["P"], some "Q", true, 10, 1⟩] [] :=
  C5_single_trial_new_folder ⟨["E"], none, false, 90, 3⟩ [⟨["P"], some "Q", true, 10, 1⟩] []
    ⟨["P"], some "Q", true, 10, 1⟩ (by simp) rfl rfl

/-! ## Claim C6: verdict invariants -/

/-- Claim C6: every produced verdict satisfies `needsReview = !isDominant`, the
reason list is empty exactly when the verdict is dominant (and the
surfaced `reviewReason` field is `none` exactly then), and the reasons
always appear as a sublist of the fixed rule order
`LowAbsoluteConfidence, CloseAlternatives, NewFolderUnverified,
NewFolderSingleTrial`. -/
theorem C6_verdict_invariants (top : NormEntry) (alts : List NormEntry)
    (trials : List TrialResult) :
    (buildResult top alts trials).needsReview = !(buildResult top alts trials).isDominant ∧
    (reviewReasons top alts trials = [] ↔ (buildResult top alts trials).isDominant = true) ∧
    ((buildResult top alts trials).reviewReason = none ↔ reviewReasons top alts trials = []) ∧
    (reviewReasons top alts trials).Sublist
      [LowAbsoluteConfidence, CloseAlternatives, NewFolderUnverified, NewFolderSingleTrial] := by
  refine ⟨rfl, ?_, ?_, ?_⟩
  · show reviewReasons top alts trials = [] ↔ isDominant top alts trials = true
    rcases alts with _ | ⟨a, rest⟩
    · cases h1 : absoluteThreshold top <;>
        cases h3 : newFolderNeedsReview top [top] trials <;>
          cases h4 : hasNewFolderInSingleTrial [top] <;>
            simp [reviewReasons, isDominant, relativeDominance, h1, h3, h4]
    · cases h1 : absoluteThreshold top <;>
        cases h2 : relativeDominance top (a :: rest) <;>
          cases h3 : newFolderNeedsReview top (top :: a :: rest) trials <;>
            cases h4 : hasNewFolderInSingleTrial (top :: a :: rest) <;>
              simp [reviewReasons, isDominant, h1, h2, h3, h4]
  · rcases h : reviewReasons top alts trials with _ | ⟨r, rs⟩ <;> simp [buildResult, h]
  · rw [reviewReasons]
    cases h1 : absoluteThreshold top <;>
      cases h2 : relativeDominance top alts <;>
        cases h3 : newFolderNeedsReview top (top :: alts) trials <;>
          cases h4 : hasNewFolderInSingleTrial (top :: alts) <;>
            cases h5 : alts.isEmpty <;> simp

/-! ## Claim C2 (amended): the new-folder caution rule -/

/-- Claim C2 as the code implements it (amended): when the top choice is a new-folder
suggestion, the verdict is dominant only if its `count` is at least the
hardcoded constant 3 (not the number of usable samples) and its
normalized confidence is at least 50; whenever `count < 3` or the
confidence is below 50 the verdict is not dominant and
`NewFolderUnverified` is collected. -/
theorem C2_new_folder_rule (top : NormEntry) (alts : List NormEntry)
    (trials : List TrialResult) (hnew : top.isNewFolder = true) :
    (isDominant top alts trials = true →
      3 ≤ top.count ∧ 50 ≤ top.normalizedConfidence) ∧
    ((top.count < 3 ∨ top.normalizedConfidence < 50) →
      isDominant top alts trials = false ∧
      NewFolderUnverified ∈ reviewReasons top alts trials) := by
  constructor
  · intro h
    rw [isDominant] at h
    simp only [Bool.and_eq_true] at h
    have hrev : newFolderNeedsReview top (top :: alts) trials = false := by
      have := h.1.2
      rwa [Bool.not_eq_true'] at this
    rw [newFolderNeedsReview, hnew, Bool.true_and] at hrev
    simp only [Bool.or_eq_false_iff, decide_eq_false_iff_not, not_lt] at hrev
    exact ⟨hrev.1.2, hrev.2⟩
  · intro hcase
    have hrev : newFolderNeedsReview top (top :: alts) trials = true := by
      rw [newFolderNeedsReview, hnew, Bool.true_and]
      simp only [Bool.or_eq_true, decide_eq_true_eq]
      rcases hcase with h | h
      · exact Or.inl (Or.inr h)
      · exact Or.inr h
    constructor
    · simp [isDominant, hrev]
    · simp [reviewReasons, hrev]

/-- Witness for `C2_new_folder_rule`: a new-folder top choice with
`count = 2` out of 3 usable samples is refused with `NewFolderUnverified`
despite a normalized confidence above 94. -/
theorem C2_new_folder_rule_witness :
    isDominant ⟨["P"], some "Q", true, 1800/19, 2⟩ [⟨["E"], none, false, 100/19, 1⟩]
        [trialNew90, trialNew90, trialOld10] = false ∧
    NewFolderUnverified ∈ reviewReasons ⟨["P"], some "Q", true, 1800/19, 2⟩
        [⟨["E"], none, false, 100/19, 1⟩] [trialNew90, trialNew90, trialOld10] :=
  (C2_new_folder_rule ⟨["P"], some "Q", true, 1800/19, 2⟩ [⟨["E"], none, false, 100/19, 1⟩]
      [trialNew90, trialNew90, trialOld10] rfl).2 (Or.inl (by norm_num))

/-! ## Aggregation characterization lemmas -/

/-- The nested fold of `aggregateSuggestions` equals a single fold over
the flattened suggestion list. -/
theorem foldl_insert_trials (trials : List TrialResult) :
    ∀ m, trials.foldl (fun m t => t.suggestions.foldl insertSuggestion m) m =
      (allSuggestions trials).foldl insertSuggestion m := by
  induction trials with
  | nil => intro m; rfl
  | cons t rest ih =>
    intro m
    simp [allSuggestions, List.flatMap_cons, List.foldl_append, ih, allSuggestions]

/-- `aggregateSuggestions` as a fold over all suggestions. -/
theorem aggregateSuggestions_eq (trials : List TrialResult) :
    aggregateSuggestions trials = (allSuggestions trials).foldl insertSuggestion [] :=
  foldl_insert_trials trials []

/-- Lookup after a single insertion: the entry of the suggestion's own
key absorbs it, every other key is untouched. -/
theorem lookup_insertSuggestion (m : List (List String × AggEntry)) (s : FolderSuggestion)
    (k : List String) :
    (insertSuggestion m s).lookup k =
      if k = suggestionKey s then applySuggestion (m.lookup k) s else m.lookup k := by
  induction m with
  | nil =>
    by_cases h : k = suggestionKey s
    · simp [insertSuggestion, List.lookup_cons, beq_iff_eq.mpr h, h, applySuggestion]
    · simp [insertSuggestion, List.lookup_cons, beq_eq_false_iff_ne.mpr h, h]
  | cons p rest ih =>
    rcases p with ⟨k', e⟩
    rw [insertSuggestion]
    by_cases h1 : k' = suggestionKey s
    · rw [if_pos h1]
      by_cases h2 : k = suggestionKey s
      · have hb : (k == k') = true := beq_iff_eq.mpr (h2.trans h1.symm)
        simp [List.lookup_cons, hb, if_pos h2, applySuggestion]
      · have hb : (k == k') = false :=
          beq_eq_false_iff_ne.mpr (fun hk => h2 (hk.trans h1))
        simp [List.lookup_cons, hb, if_neg h2]
    · rw [if_neg h1]
      by_cases h3 : k = k'
      · have hb : (k == k') = true := beq_iff_eq.mpr h3
        have h2 : ¬k = suggestionKey s := fun hk => h1 (h3.symm.trans hk)
        simp [List.lookup_cons, hb, if_neg h2]
      · have hb : (k == k') = false := beq_eq_false_iff_ne.mpr h3
        simp only [List.lookup_cons, hb]
        exact ih

/-- Folding suggestions into an optional entry accumulates the sum of
their confidences. -/
theorem optTotalConfidence_foldl (l : List FolderSuggestion) :
    ∀ o, optTotalConfidence (l.foldl applySuggestion o) =
      optTotalConfidence o + (l.map (·.confidence)).sum := by
  induction l with
  | nil => intro o; simp
  | cons s rest ih =>
    intro o
    rw [List.foldl_cons, ih]
    have h : optTotalConfidence (applySuggestion o s) =
        optTotalConfidence o + s.confidence := by
      cases o <;> simp [applySuggestion, optTotalConfidence]
    rw [h, List.map_cons, List.sum_cons]
    ring

/-- Folding suggestions into an optional entry counts them. -/
theorem optOccurrenceCount_foldl (l : List FolderSuggestion) :
    ∀ o, optOccurrenceCount (l.foldl applySuggestion o) =
      optOccurrenceCount o + l.length := by
  induction l with
  | nil => intro o; simp
  | cons s rest ih =>
    intro o
    rw [List.foldl_cons, ih]
    have h : optOccurrenceCount (applySuggestion o s) = optOccurrenceCount o + 1 := by
      cases o <;> simp [applySuggestion, optOccurrenceCount]
    rw [h, List.length_cons]
    omega

/-- Folding a non-empty suggestion list always produces an entry. -/
theorem isSome_foldl (l : List FolderSuggestion) :
    ∀ o, (l.foldl applySuggestion o).isSome = (o.isSome || !l.isEmpty) := by
  induction l with
  | nil => intro o; simp
  | cons s rest ih =>
    intro o
    rw [List.foldl_cons, ih]
    have h : (applySuggestion o s).isSome = true := by
      cases o <;> simp [applySuggestion]
    simp [h]

/-- Lookup through a fold of insertions: only the suggestions carrying the
looked-up key contribute, in order. -/
theorem lookup_foldl_insert (l : List FolderSuggestion) :
    ∀ (m : List (List String × AggEntry)) (k : List String),
      (l.foldl insertSuggestion m).lookup k =
        (l.filter fun s => suggestionKey s == k).foldl applySuggestion (m.lookup k) := by
  induction l with
  | nil => intro m k; simp
  | cons s rest ih =>
    intro m k
    rw [List.foldl_cons, ih]
    by_cases h : suggestionKey s = k
    · rw [List.filter_cons_of_pos (by simp [h]), List.foldl_cons,
        lookup_insertSuggestion, if_pos h.symm]
    · rw [List.filter_cons_of_neg (by simp [h]),
        lookup_insertSuggestion, if_neg (fun hk => h hk.symm)]

/-- The aggregated entry of key `k` is the fold of exactly the
suggestions with key `k`. -/
theorem agg_lookup (trials : List TrialResult) (k : List String) :
    (aggregateSuggestions trials).lookup k =
      (suggestionsWithKey trials k).foldl applySuggestion none := by
  rw [aggregateSuggestions_eq, lookup_foldl_insert]
  rfl

/-- The aggregated total confidence of a key is the sum of the
confidences of all suggestions with that key. -/
theorem agg_totalConfidence (trials : List TrialResult) (k : List String) :
    optTotalConfidence ((aggregateSuggestions trials).lookup k) =
      ((suggestionsWithKey trials k).map (·.confidence)).sum := by
  rw [agg_lookup, optTotalConfidence_foldl]
  simp [optTotalConfidence]

/-- The aggregated occurrence count of a key is the number of suggestions
with that key. -/
theorem agg_occurrenceCount (trials : List TrialResult) (k : List String) :
    optOccurrenceCount ((aggregateSuggestions trials).lookup k) =
      (suggestionsWithKey trials k).length := by
  rw [agg_lookup, optOccurrenceCount_foldl]
  simp [optOccurrenceCount]

/-- A key is present in the aggregate exactly when some suggestion
carries it. -/
theorem agg_isSome (trials : List TrialResult) (k : List String) :
    ((aggregateSuggestions trials).lookup k).isSome =
      !(suggestionsWithKey trials k).isEmpty := by
  rw [agg_lookup, isSome_foldl]
  simp

/-- The fold in `grandTotal` is summation. -/
theorem grandTotal_eq_sum (m : List (List String × AggEntry)) :
    grandTotal m = (m.map (·.2.totalConfidence)).sum := by
  rw [grandTotal]
  suffices h : ∀ (l : List (List String × AggEntry)) (init : ℚ),
      l.foldl (fun sum item => sum + item.2.totalConfidence) init =
        init + (l.map (·.2.totalConfidence)).sum by
    rw [h]; ring
  intro l
  induction l with
  | nil => intro init; simp
  | cons p rest ih =>
    intro init
    rw [List.foldl_cons, ih, List.map_cons, List.sum_cons]
    ring

/-- A single insertion adds the suggestion's confidence to the total mass
of the map. -/
theorem sum_tc_insertSuggestion (m : List (List String × AggEntry)) (s : FolderSuggestion) :
    ((insertSuggestion m s).map (·.2.totalConfidence)).sum =
      (m.map (·.2.totalConfidence)).sum + s.confidence := by
  induction m with
  | nil => simp [insertSuggestion]
  | cons p rest ih =>
    rcases p with ⟨k', e⟩
    rw [insertSuggestion]
    by_cases h : k' = suggestionKey s
    · rw [if_pos h]
      simp only [List.map_cons, List.sum_cons]
      ring
    · rw [if_neg h]
      simp only [List.map_cons, List.sum_cons, ih]
      ring

/-- Folding a suggestion list adds the sum of its confidences to the
total mass of the map. -/
theorem sum_tc_foldl (l : List FolderSuggestion) :
    ∀ m : List (List String × AggEntry),
      ((l.foldl insertSuggestion m).map (·.2.totalConfidence)).sum =
        (m.map (·.2.totalConfidence)).sum + (l.map (·.confidence)).sum := by
  induction l with
  | nil => intro m; simp
  | cons s rest ih =>
    intro m
    rw [List.foldl_cons, ih, sum_tc_insertSuggestion, List.map_cons, List.sum_cons]
    ring

/-- The grand total of the aggregate is the sum of all suggested
confidences. -/
theorem grandTotal_agg (trials : List TrialResult) :
    grandTotal (aggregateSuggestions trials) =
      ((allSuggestions trials).map (·.confidence)).sum := by
  rw [grandTotal_eq_sum, aggregateSuggestions_eq, sum_tc_foldl]
  simp

/-- Key membership after a single insertion. -/
theorem mem_keys_insertSuggestion (m : List (List String × AggEntry)) (s : FolderSuggestion)
    (k : List String) :
    k ∈ (insertSuggestion m s).map (·.1) ↔ k ∈ m.map (·.1) ∨ k = suggestionKey s := by
  induction m with
  | nil => simp [insertSuggestion]
  | cons p rest ih =>
    rcases p with ⟨k', e⟩
    rw [insertSuggestion]
    by_cases h : k' = suggestionKey s
    · rw [if_pos h]
      simp only [List.map_cons, List.mem_cons]
      constructor
      · intro hc
        rcases hc with hc | hc
        · exact Or.inl (Or.inl hc)
        · exact Or.inl (Or.inr hc)
      · intro hc
        rcases hc with (hc | hc) | hc
        · exact Or.inl hc
        · exact Or.inr hc
        · exact Or.inl (hc.trans h.symm)
    · rw [if_neg h]
      simp only [List.map_cons, List.mem_cons, ih]
      tauto

/-- Insertion preserves distinctness of the stored keys. -/
theorem nodup_keys_insertSuggestion (m : List (List String × AggEntry)) (s : FolderSuggestion)
    (h : (m.map (·.1)).Nodup) : ((insertSuggestion m s).map (·.1)).Nodup := by
  induction m with
  | nil => simp [insertSuggestion]
  | cons p rest ih =>
    rcases p with ⟨k', e⟩
    rw [List.map_cons, List.nodup_cons] at h
    rw [insertSuggestion]
    by_cases hk : k' = suggestionKey s
    · rw [if_pos hk]
      rw [List.map_cons, List.nodup_cons]
      exact h
    · rw [if_neg hk]
      rw [List.map_cons, List.nodup_cons]
      refine ⟨?_, ih h.2⟩
      rw [mem_keys_insertSuggestion]
      rintro (hc | hc)
      · exact h.1 hc
      · exact hk hc

/-- The aggregate's keys are distinct. -/
theorem agg_nodup_keys (trials : List TrialResult) :
    ((aggregateSuggestions trials).map (·.1)).Nodup := by
  rw [aggregateSuggestions_eq]
  suffices h : ∀ (l : List FolderSuggestion) (m : List (List String × AggEntry)),
      (m.map (·.1)).Nodup → ((l.foldl insertSuggestion m).map (·.1)).Nodup by
    exact h (allSuggestions trials) [] (by simp)
  intro l
  induction l with
  | nil => intro m hm; exact hm
  | cons s rest ih =>
    intro m hm
    rw [List.foldl_cons]
    exact ih (insertSuggestion m s) (nodup_keys_insertSuggestion m s hm)

/-- A successful lookup comes from a stored pair. -/
theorem mem_of_lookup_eq_some {m : List (List String × AggEntry)} {k : List String}
    {v : AggEntry} (h : m.lookup k = some v) : (k, v) ∈ m := by
  induction m with
  | nil => simp [List.lookup] at h
  | cons p rest ih =>
    rcases p with ⟨k', e⟩
    rw [List.lookup_cons] at h
    by_cases hk : k = k'
    · rw [beq_iff_eq.mpr hk] at h
      simp only [Option.some.injEq] at h
      subst hk
      subst h
      exact List.mem_cons_self _ _
    · rw [beq_eq_false_iff_ne.mpr hk] at h
      exact List.mem_cons_of_mem _ (ih h)

/-- With distinct keys, every stored pair is found by lookup. -/
theorem lookup_eq_some_of_mem {m : List (List String × AggEntry)} {k : List String}
    {v : AggEntry} (hnd : (m.map (·.1)).Nodup) (h : (k, v) ∈ m) :
    m.lookup k = some v := by
  induction m with
  | nil => simp at h
  | cons p rest ih =>
    rcases p with ⟨k', e⟩
    rw [List.map_cons, List.nodup_cons] at hnd
    rcases List.mem_cons.mp h with he | he
    · rw [Prod.mk.injEq] at he
      rw [List.lookup_cons, beq_iff_eq.mpr he.1]
      exact congrArg some he.2.symm
    · have hk : ¬k = k' := by
        intro hk
        subst hk
        exact hnd.1 (List.mem_map.mpr ⟨(k, v), he, rfl⟩)
      rw [List.lookup_cons, beq_eq_false_iff_ne.mpr hk]
      exact ih hnd.2 he

/-! ## Normalization lemmas and claim C4 -/

/-- The ranked output is empty exactly when the grand total is zero. -/
theorem normalize_empty_iff (m : List (List String × AggEntry)) :
    normalizeConfidences m = [] ↔ grandTotal m = 0 := by
  by_cases hG : grandTotal m = 0
  · simp [normalizeConfidences, hG]
  · rw [normalizeConfidences, if_neg hG]
    constructor
    · intro h
      have hlen := (List.perm_insertionSort confGE
        (m.map fun item =>
          (⟨item.2.path, item.2.newFolderName, item.2.isNewFolder,
            item.2.totalConfidence / grandTotal m * 100, item.2.count⟩ : NormEntry))).length_eq
      rw [h, List.length_map] at hlen
      have hm : m = [] := List.length_eq_zero.mp hlen.symm
      rw [hm] at hG
      exact absurd rfl hG
    · intro h
      exact absurd h hG

/-- With a non-zero grand total, the normalized confidences sum to
exactly 100. -/
theorem normalize_sum_eq_100 (m : List (List String × AggEntry))
    (hG : grandTotal m ≠ 0) :
    ((normalizeConfidences m).map (·.normalizedConfidence)).sum = 100 := by
  rw [normalizeConfidences, if_neg hG]
  have hperm := List.perm_insertionSort confGE
    (m.map fun item =>
      (⟨item.2.path, item.2.newFolderName, item.2.isNewFolder,
        item.2.totalConfidence / grandTotal m * 100, item.2.count⟩ : NormEntry))
  rw [(hperm.map (·.normalizedConfidence)).sum_eq, List.map_map]
  have heq : ((fun n : NormEntry => n.normalizedConfidence) ∘
      fun item : List String × AggEntry =>
        (⟨item.2.path, item.2.newFolderName, item.2.isNewFolder,
          item.2.totalConfidence / grandTotal m * 100, item.2.count⟩ : NormEntry)) =
      fun item : List String × AggEntry =>
        item.2.totalConfidence * (100 / grandTotal m) := by
    funext item
    show item.2.totalConfidence / grandTotal m * 100 = _
    ring
  rw [heq, List.sum_map_mul_right, ← grandTotal_eq_sum]
  field_simp

/-- Every ranked entry arises from an aggregated entry by the
normalization formula. -/
theorem normalize_mem (m : List (List String × AggEntry)) (e : NormEntry)
    (he : e ∈ normalizeConfidences m) :
    ∃ p ∈ m, e.normalizedConfidence = p.2.totalConfidence / grandTotal m * 100 ∧
      e.count = p.2.count := by
  by_cases hG : grandTotal m = 0
  · rw [normalizeConfidences, if_pos hG] at he
    simp at he
  · rw [normalizeConfidences, if_neg hG] at he
    have hmem := (List.perm_insertionSort confGE _).mem_iff.mp he
    rw [List.mem_map] at hmem
    obtain ⟨p, hp, hep⟩ := hmem
    exact ⟨p, hp, by rw [← hep], by rw [← hep]⟩

/-- Claim C4: each ranked candidate's normalized confidence is its aggregated
mass divided by the grand total times 100; the ranked confidences sum to
exactly 100 whenever the grand total is non-zero; and the pipeline fails
with `"No valid suggestions received from any trial"` exactly when the
candidate set is empty or the grand total is 0 (an empty candidate set
forces a zero grand total). -/
theorem C4_normalization :
    (∀ m : List (List String × AggEntry),
      (∀ e ∈ normalizeConfidences m, ∃ p ∈ m,
        e.normalizedConfidence = p.2.totalConfidence / grandTotal m * 100 ∧
        e.count = p.2.count) ∧
      (grandTotal m ≠ 0 →
        ((normalizeConfidences m).map (·.normalizedConfidence)).sum = 100) ∧
      (normalizeConfidences m = [] ↔ grandTotal m = 0) ∧
      (m = [] → grandTotal m = 0)) ∧
    (∀ trials : List TrialResult,
      classifyPipeline trials =
          Except.error "No valid suggestions received from any trial" ↔
        grandTotal (aggregateSuggestions trials) = 0) := by
  constructor
  · intro m
    refine ⟨normalize_mem m, normalize_sum_eq_100 m, normalize_empty_iff m, ?_⟩
    intro hm
    rw [hm]
    rfl
  · intro trials
    rcases h : normalizeConfidences (aggregateSuggestions trials) with _ | ⟨top, alts⟩
    · rw [classifyPipeline, h]
      simp [(normalize_empty_iff (aggregateSuggestions trials)).mp h]
    · rw [classifyPipeline, h]
      constructor
      · intro hc
        exact absurd hc (by simp)
      · intro hG
        have := (normalize_empty_iff (aggregateSuggestions trials)).mpr hG
        rw [h] at this
        exact absurd this (by simp)

/-- Witness for `C4_normalization`: two candidates of raw mass 50 each
give a grand total of 100 and ranked confidences summing to 100, and an
empty trial list makes the pipeline fail with the no-valid-suggestions
error. -/
theorem C4_normalization_witness :
    grandTotal (aggregateSuggestions [trialOnlyA, trialOnlyB]) ≠ 0 ∧
    ((normalizeConfidences (aggregateSuggestions [trialOnlyA, trialOnlyB])).map
      (·.normalizedConfidence)).sum = 100 ∧
    (classifyPipeline [] = Except.error "No valid suggestions received from any trial") := by
  have hG : grandTotal (aggregateSuggestions [trialOnlyA, trialOnlyB]) ≠ 0 := by
    norm_num +decide [grandTotal, aggregateSuggestions, insertSuggestion, suggestionKey,
      getPathKey, trialOnlyA, trialOnlyB]
  refine ⟨hG, (C4_normalization.1 (aggregateSuggestions [trialOnlyA, trialOnlyB])).2.1 hG, ?_⟩
  exact (C4_normalization.2 []).mpr rfl

/-! ## Claim C7: aggregation per candidate key -/

/-- Claim C7 (amended): for every key, the aggregated entry's total confidence
is the sum of the confidences of all suggestions carrying that key, and
its occurrence count is the number of such suggestions across all samples
(which equals the number of proposing samples only when no sample repeats
a key); an entry exists exactly when some suggestion carries the key.
Concretely, a candidate proposed in 3 samples at 60 each carries raw mass
180 and outranks one proposed once at 95. -/
theorem C7_aggregate_masses (trials : List TrialResult) (k : List String) :
    optTotalConfidence ((aggregateSuggestions trials).lookup k) =
      ((suggestionsWithKey trials k).map (·.confidence)).sum ∧
    optOccurrenceCount ((aggregateSuggestions trials).lookup k) =
      (suggestionsWithKey trials k).length ∧
    ((aggregateSuggestions trials).lookup k).isSome =
      !(suggestionsWithKey trials k).isEmpty ∧
    ((normalizeConfidences (aggregateSuggestions [trialMass1, trialMass2, trialMass2])).map
      fun n => (n.path, n.count)) = [(["A"], 3), (["B"], 1)] ∧
    optTotalConfidence
      ((aggregateSuggestions [trialMass1, trialMass2, trialMass2]).lookup ["A"]) = 180 ∧
    optTotalConfidence
      ((aggregateSuggestions [trialMass1, trialMass2, trialMass2]).lookup ["B"]) = 95 := by
  refine ⟨agg_totalConfidence trials k, agg_occurrenceCount trials k, agg_isSome trials k,
    ?_, ?_, ?_⟩ <;>
    norm_num +decide [normalizeConfidences, aggregateSuggestions, insertSuggestion,
      suggestionKey, getPathKey, grandTotal, List.insertionSort, List.orderedInsert, confGE,
      optTotalConfidence, List.lookup_cons, trialMass1, trialMass2]

/-- Counterexample for claim C7: a single sample repeating one new-folder key three
times yields `occurrenceCount = 3` although exactly 1 sample proposed the
key, so the occurrence count is not the number of proposing samples. -/
theorem C7_counterexample :
    optOccurrenceCount ((aggregateSuggestions [trialDupNew]).lookup ["P", "NEW:Q"]) = 3 ∧
    ([trialDupNew].filter fun t =>
      t.suggestions.any fun s => suggestionKey s == ["P", "NEW:Q"]).length = 1 ∧
    (3 : Nat) ≠ 1 := by
  refine ⟨?_, ?_, by decide⟩ <;>
    norm_num +decide [aggregateSuggestions, insertSuggestion, suggestionKey, getPathKey,
      optOccurrenceCount, List.lookup_cons, trialDupNew]

/-! ## Claim C3: order (in)dependence of aggregation and normalization -/

/-- Counterexample for claim C3: swapping two samples that propose distinct
candidates with equal confidence changes the ranked output order (the
stable sort keeps first-sighting order on ties, not a key-based
tie-break), so the ranked outputs are not identical. -/
theorem C3_counterexample :
    [trialOnlyA, trialOnlyB].Perm [trialOnlyB, trialOnlyA] ∧
    normalizeConfidences (aggregateSuggestions [trialOnlyA, trialOnlyB]) ≠
      normalizeConfidences (aggregateSuggestions [trialOnlyB, trialOnlyA]) := by
  constructor
  · exact List.Perm.swap trialOnlyB trialOnlyA []
  · norm_num +decide [normalizeConfidences, aggregateSuggestions, insertSuggestion,
      suggestionKey, getPathKey, grandTotal, List.insertionSort, List.orderedInsert, confGE,
      trialOnlyA, trialOnlyB]

/-- Suggestions with a fixed key are permuted along with the samples. -/
theorem suggestionsWithKey_perm {l1 l2 : List TrialResult} (h : l1.Perm l2)
    (k : List String) : (suggestionsWithKey l1 k).Perm (suggestionsWithKey l2 k) := by
  rw [suggestionsWithKey, suggestionsWithKey, allSuggestions, allSuggestions]
  exact List.Perm.filter _ (h.flatMap_right (·.suggestions))

/-- Permuting the samples preserves each key's aggregated mass and
occurrence count (though not necessarily its first-sighting payload). -/
theorem agg_lookup_pair_perm {l1 l2 : List TrialResult} (h : l1.Perm l2)
    (k : List String) :
    ((aggregateSuggestions l1).lookup k).map (fun e => (e.totalConfidence, e.count)) =
      ((aggregateSuggestions l2).lookup k).map (fun e => (e.totalConfidence, e.count)) := by
  have hp := suggestionsWithKey_perm h k
  have htc := (agg_totalConfidence l1 k).trans
    (((hp.map (·.confidence)).sum_eq).trans (agg_totalConfidence l2 k).symm)
  have hcnt := (agg_occurrenceCount l1 k).trans
    (hp.length_eq.trans (agg_occurrenceCount l2 k).symm)
  have hsome : ((aggregateSuggestions l1).lookup k).isSome =
      ((aggregateSuggestions l2).lookup k).isSome := by
    rw [agg_isSome, agg_isSome]
    have hlen := hp.length_eq
    rcases e1 : suggestionsWithKey l1 k with _ | ⟨x, xs⟩ <;>
      rcases e2 : suggestionsWithKey l2 k with _ | ⟨y, ys⟩ <;> simp_all
  rcases ho1 : (aggregateSuggestions l1).lookup k with _ | e1 <;>
    rcases ho2 : (aggregateSuggestions l2).lookup k with _ | e2 <;>
      rw [ho1, ho2] at hsome htc hcnt
  all_goals try simp at hsome
  all_goals simp only [optTotalConfidence] at htc
  all_goals simp only [optOccurrenceCount] at hcnt
  all_goals simp [htc, hcnt]

/-- Membership in the key/mass/count projection of the aggregate is
determined by lookup. -/
theorem agg_proj_mem_iff (l : List TrialResult) (a : List String × ℚ × Nat) :
    a ∈ (aggregateSuggestions l).map (fun p => (p.1, p.2.totalConfidence, p.2.count)) ↔
      ((aggregateSuggestions l).lookup a.1).map (fun e => (e.totalConfidence, e.count)) =
        some a.2 := by
  constructor
  · intro hmem
    rw [List.mem_map] at hmem
    obtain ⟨p, hp, hpa⟩ := hmem
    subst hpa
    rw [lookup_eq_some_of_mem (agg_nodup_keys l) (show (p.1, p.2) ∈ _ from hp)]
    rfl
  · intro hl
    rcases ho : (aggregateSuggestions l).lookup a.1 with _ | e
    · rw [ho] at hl
      simp at hl
    · rw [ho] at hl
      simp only [Option.map_some', Option.some.injEq] at hl
      rw [List.mem_map]
      refine ⟨(a.1, e), mem_of_lookup_eq_some ho, ?_⟩
      show (a.1, e.totalConfidence, e.count) = a
      rw [hl]
  
/-- Permuting the samples permutes the key/mass/count projection of the
aggregate. -/
theorem agg_proj_perm {l1 l2 : List TrialResult} (h : l1.Perm l2) :
    ((aggregateSuggestions l1).map (fun p => (p.1, p.2.totalConfidence, p.2.count))).Perm
      ((aggregateSuggestions l2).map (fun p => (p.1, p.2.totalConfidence, p.2.count))) := by
  have nd : ∀ l : List TrialResult,
      ((aggregateSuggestions l).map
        (fun p => (p.1, p.2.totalConfidence, p.2.count))).Nodup := by
    intro l
    apply List.Nodup.of_map (fun q : List String × ℚ × Nat => q.1)
    have he : ((aggregateSuggestions l).map
        (fun p => (p.1, p.2.totalConfidence, p.2.count))).map
          (fun q : List String × ℚ × Nat => q.1) = (aggregateSuggestions l).map (·.1) := by
      rw [List.map_map]
      rfl
    rw [he]
    exact agg_nodup_keys l
  refine (List.perm_ext_iff_of_nodup (nd l1) (nd l2)).mpr ?_
  intro a
  rw [agg_proj_mem_iff, agg_proj_mem_iff, agg_lookup_pair_perm h a.1]

/-- Claim C3 (amended): aggregation followed by normalization is
order-independent in candidate identities and values, but not in output
order or first-sighting payload: for every permutation of the sample
list, every candidate key keeps the same aggregated mass, occurrence
count and (since the grand total is unchanged) normalized confidence, and
the ranked outputs are permutations of one another in those fields; ties
in normalized confidence keep first-sighting order, so the output order
itself may change. -/
theorem C3_permutation_stability (l1 l2 : List TrialResult) (h : l1.Perm l2) :
    (∀ k, ((aggregateSuggestions l1).lookup k).map (fun e => (e.totalConfidence, e.count)) =
      ((aggregateSuggestions l2).lookup k).map (fun e => (e.totalConfidence, e.count))) ∧
    grandTotal (aggregateSuggestions l1) = grandTotal (aggregateSuggestions l2) ∧
    ((normalizeConfidences (aggregateSuggestions l1)).map
        fun n => (n.normalizedConfidence, n.count)).Perm
      ((normalizeConfidences (aggregateSuggestions l2)).map
        fun n => (n.normalizedConfidence, n.count)) := by
  have hGt : grandTotal (aggregateSuggestions l1) = grandTotal (aggregateSuggestions l2) := by
    rw [grandTotal_agg, grandTotal_agg, allSuggestions, allSuggestions]
    exact ((h.flatMap_right (·.suggestions)).map (·.confidence)).sum_eq
  refine ⟨fun k => agg_lookup_pair_perm h k, hGt, ?_⟩
  by_cases hG : grandTotal (aggregateSuggestions l1) = 0
  · rw [(normalize_empty_iff _).mpr hG,
      (normalize_empty_iff _).mpr (by rw [← hGt]; exact hG)]
  · rw [normalizeConfidences, if_neg hG, normalizeConfidences,
      if_neg (show ¬grandTotal (aggregateSuggestions l2) = 0 by rw [← hGt]; exact hG)]
    refine ((List.perm_insertionSort confGE _).map _).trans
      (List.Perm.trans ?_ (((List.perm_insertionSort confGE _).map _).symm))
    rw [List.map_map, List.map_map]
    have he1 : ((fun n : NormEntry => (n.normalizedConfidence, n.count)) ∘
        fun item : List String × AggEntry =>
          (⟨item.2.path, item.2.newFolderName, item.2.isNewFolder,
            item.2.totalConfidence / grandTotal (aggregateSuggestions l1) * 100,
            item.2.count⟩ : NormEntry)) =
        (fun q : List String × ℚ × Nat =>
          (q.2.1 / grandTotal (aggregateSuggestions l1) * 100, q.2.2)) ∘
          fun p : List String × AggEntry => (p.1, p.2.totalConfidence, p.2.count) := by
      funext p
      rfl
    have he2 : ((fun n : NormEntry => (n.normalizedConfidence, n.count)) ∘
        fun item : List String × AggEntry =>
          (⟨item.2.path, item.2.newFolderName, item.2.isNewFolder,
            item.2.totalConfidence / grandTotal (aggregateSuggestions l2) * 100,
            item.2.count⟩ : NormEntry)) =
        (fun q : List String × ℚ × Nat =>
          (q.2.1 / grandTotal (aggregateSuggestions l1) * 100, q.2.2)) ∘
          fun p : List String × AggEntry => (p.1, p.2.totalConfidence, p.2.count) := by
      funext p
      show (p.2.totalConfidence / grandTotal (aggregateSuggestions l2) * 100, p.2.count) = _
      rw [hGt]
      rfl
    rw [he1, he2, ← List.map_map, ← List.map_map]
    exact (agg_proj_perm h).map _

/-- Witness for `C3_permutation_stability` on a concrete swapped pair of
samples. -/
theorem C3_permutation_stability_witness :
    grandTotal (aggregateSuggestions [trialOnlyA, trialOnlyB]) =
      grandTotal (aggregateSuggestions [trialOnlyB, trialOnlyA]) ∧
    ((normalizeConfidences (aggregateSuggestions [trialOnlyA, trialOnlyB])).map
        fun n => (n.normalizedConfidence, n.count)).Perm
      ((normalizeConfidences (aggregateSuggestions [trialOnlyB, trialOnlyA])).map
        fun n => (n.normalizedConfidence, n.count)) :=
  ⟨(C3_permutation_stability _ _ (List.Perm.swap trialOnlyB trialOnlyA [])).2.1,
    (C3_permutation_stability _ _ (List.Perm.swap trialOnlyB trialOnlyA [])).2.2⟩

/-- Counterexample for claim C2: with an oracle that yields one usable sample
containing the same new-folder suggestion three times, the pipeline
returns a dominant verdict although the top candidate's occurrence count
(3) differs from the number of usable samples collected (1) — so
dominance does not require `occurrenceCount = rawSampleCount`, and no
`NewFolderUnverified` reason is added although that equation fails. -/
theorem C2_counterexample :
    (classifyFile oracleDupNew).map (fun r => (r.isDominant, r.needsReview,
      r.reviewReason, r.rawTrials.length)) = Except.ok (true, false, none, 1) ∧
    (normalizeConfidences (aggregateSuggestions [trialDupNew])).map (·.count) = [3] ∧
    (3 : Nat) ≠ 1 := by
  have hcollect : collectTrials oracleDupNew = ([trialDupNew], 6) := by
    calc collectTrials oracleDupNew = collectLoop oracleDupNew 6 [] 0 := rfl
      _ = collectLoop oracleDupNew 5 [trialDupNew] 1 :=
        collectLoop_step_some _ 5 [] 0 trialDupNew (by simp) (by omega) rfl
      _ = collectLoop oracleDupNew 4 [trialDupNew] 2 :=
        collectLoop_step_none _ 4 [trialDupNew] 1 (by simp) (by omega) rfl
      _ = collectLoop oracleDupNew 3 [trialDupNew] 3 :=
        collectLoop_step_none _ 3 [trialDupNew] 2 (by simp) (by omega) rfl
      _ = collectLoop oracleDupNew 2 [trialDupNew] 4 :=
        collectLoop_step_none _ 2 [trialDupNew] 3 (by simp) (by omega) rfl
      _ = collectLoop oracleDupNew 1 [trialDupNew] 5 :=
        collectLoop_step_none _ 1 [trialDupNew] 4 (by simp) (by omega) rfl
      _ = collectLoop oracleDupNew 0 [trialDupNew] 6 :=
        collectLoop_step_none _ 0 [trialDupNew] 5 (by simp) (by omega) rfl
      _ = ([trialDupNew], 6) := rfl
  refine ⟨?_, ?_, by decide⟩
  · simp only [classifyFile, hcollect]
    norm_num +decide [classifyPipeline, normalizeConfidences, aggregateSuggestions,
      insertSuggestion, suggestionKey, getPathKey, grandTotal, List.insertionSort,
      List.orderedInsert, confGE, buildResult, isDominant, absoluteThreshold,
      relativeDominance, newFolderNeedsReview, hasNewFolderInSingleTrial,
      isNewFolderSuggestedMultipleTimes, NormEntry.toChoice, reviewReasons, trialDupNew]
    simp [Except.map]
  · norm_num +decide [normalizeConfidences, aggregateSuggestions, insertSuggestion,
      suggestionKey, getPathKey, grandTotal, List.insertionSort, List.orderedInsert,
      confGE, trialDupNew]
